import Mathlib

/-!
Verification development for the CommandCenter 4.0 backend
(`backend/app/forecaster.py`, `backend/app/intelligence.py`,
`backend/app/main.py`, `backend/app/models.py`, `backend/app/schemas.py`).

The Python source is shallowly embedded: pure text processing becomes
functions on `String`/`List Char`, JSON values become an inductive type with
an executable parser and serializer modelling `json.loads`/`json.dumps`,
floats become `ℚ`, nullable values become `Option`, raised exceptions become
`Except`/`Option` failures, and the SQLAlchemy-backed store becomes explicit
state passing over lists of records.  External services (the generative
reasoning model and the forecasting model) are inputs: their raw response
texts, or response-producing oracles, are arguments of the embedded
operations.
-/

/-! ## Forecast extraction (`forecaster.get_calibrated_probability`) -/

/-- A word character in the sense of the regex `\b` boundary
(`[A-Za-z0-9_]`; the Python pattern additionally counts non-ASCII word
characters, which never occur in the probability tokens themselves). -/
def isWordChar (c : Char) : Bool := c.isAlphanum || c = '_'

def digitVal (c : Char) : Nat := c.toNat - '0'.toNat

def natOfDigits (ds : List Char) : Nat :=
  ds.foldl (fun acc c => acc * 10 + digitVal c) 0

/-- `10 ^ n` on `Nat`, written with first-principles recursion so that the
kernel evaluates it directly. -/
def natTenPow : Nat → Nat
  | 0 => 1
  | n + 1 => 10 * natTenPow n

/-- `min(max(prob, 0.0), 1.0)` from `forecaster.py`, with Python's
two-argument `max`/`min` written out as conditionals:
`max(q, 0.0)` is `0` when `0 > q` and `q` otherwise, and `min(m, 1.0)` is
`1` when `1 < m` and `m` otherwise. -/
def clamp01 (q : ℚ) : ℚ :=
  let m := if q < 0 then 0 else q
  if 1 < m then 1 else m

/-- Does the position right after a candidate match satisfy the trailing
`\b` of `re.findall(r'\b(0\.\d+|1\.0|1\.00?)\b', ...)`?  The last matched
character is a digit (a word character), so the boundary holds exactly when
the next character is absent or not a word character. -/
def boundaryAfter : List Char → Bool
  | [] => true
  | c :: _ => !isWordChar c

/-- Attempt the decimal-probability pattern `0\.\d+|1\.0|1\.00?` (with its
trailing `\b`) at the current position, returning the matched value and the
length of the match.  The alternatives are tried in the regex's order; for
`0\.\d+` the greedy digit run is maximal (backtracking can never repair a
failed trailing boundary, because shortening the run leaves a digit as the
next character). -/
def matchDecimalAt : List Char → Option (ℚ × Nat)
  | '0' :: '.' :: rest =>
      let ds := rest.takeWhile Char.isDigit
      if ds.isEmpty then none
      else if boundaryAfter (rest.drop ds.length) then
        some (mkRat (Int.ofNat (natOfDigits ds)) (natTenPow ds.length),
          ds.length + 2)
      else none
  | '1' :: '.' :: '0' :: rest =>
      if boundaryAfter rest then some (1, 3)
      else
        match rest with
        | '0' :: rest2 => if boundaryAfter rest2 then some (1, 4) else none
        | _ => none
  | _ => none

/-- Left-to-right non-overlapping scan of `re.findall` for the decimal
pattern.  `prevWord` records whether the previous character is a word
character (the leading `\b` before the digit `0`/`1` requires it not to be);
after a match the scan resumes at the match end, whose previous character is
the final matched digit.  The fuel argument bounds the scan and is
instantiated with the string length. -/
def scanDecimals : Nat → Bool → List Char → List ℚ
  | 0, _, _ => []
  | _ + 1, _, [] => []
  | fuel + 1, prevWord, c :: rest =>
      match (if prevWord then none else matchDecimalAt (c :: rest)) with
      | some (q, len) => q :: scanDecimals fuel true (List.drop len (c :: rest))
      | none => scanDecimals fuel (isWordChar c) rest

/-- All matches of `re.findall(r'\b(0\.\d+|1\.0|1\.00?)\b', s)`, in order. -/
def decimalMatches (s : String) : List ℚ :=
  scanDecimals (s.length + 1) false s.data

/-- Attempt `(\d{1,3})%` at the current position: the greedy `\d{1,3}`
tries three digits first and backtracks down to one, each time requiring a
literal `%` immediately after.  Returns the percentage value (the capture
group) and the full match length. -/
def percentTryLen (cs : List Char) : Nat → Option (Nat × Nat)
  | 0 => none
  | k + 1 =>
      match cs.drop (k + 1) with
      | '%' :: _ => some (natOfDigits (cs.take (k + 1)), k + 2)
      | _ => percentTryLen cs k

def matchPercentAt (cs : List Char) : Option (Nat × Nat) :=
  percentTryLen cs (min (cs.takeWhile Char.isDigit).length 3)

/-- Left-to-right non-overlapping scan of `re.findall(r'(\d{1,3})%', s)`
(the pattern has no `\b` anchors).  The captured groups are digit strings;
the list holds their numeric values. -/
def scanPercents : Nat → List Char → List Nat
  | 0, _ => []
  | _ + 1, [] => []
  | fuel + 1, c :: rest =>
      match matchPercentAt (c :: rest) with
      | some (n, len) => n :: scanPercents fuel (List.drop len (c :: rest))
      | none => scanPercents fuel rest

/-- All capture groups of `re.findall(r'(\d{1,3})%', s)`, in order. -/
def percentMatches (s : String) : List Nat :=
  scanPercents (s.length + 1) s.data

/-- Probability extraction from a raw forecaster response
(`forecaster.py` lines 66-81): last decimal match clamped; otherwise last
percentage match divided by 100 (`float(pct_matches[-1]) / 100` is the exact
rational `mkRat pct 100`) and clamped; otherwise unavailable. -/
def extract_probability (s : String) : Option ℚ :=
  match (decimalMatches s).getLast? with
  | some prob => some (clamp01 prob)
  | none =>
      match (percentMatches s).getLast? with
      | some pct => some (clamp01 (mkRat (Int.ofNat pct) 100))
      | none => none

/-- `forecaster.get_calibrated_probability`, with the effectful environment
made explicit: `hasToken` is whether `HUGGINGFACE_TOKEN` is configured
(`get_client` returns `None` without it) and `call` is the outcome of the
`text_generation` request — `Except.error` models a raised exception (which
the `try`/`except` turns into `None`), `Except.ok` carries the raw response
text handed to the extraction step. -/
def get_calibrated_probability (hasToken : Bool) (call : Except Unit String) :
    Option ℚ :=
  if hasToken then
    match call with
    | Except.error _ => none
    | Except.ok response => extract_probability response
  else none

/-! ## JSON values, `json.loads`, `json.dumps`, and code-fence stripping -/

/-- JSON values, the shape of Python `json.loads` output (dicts are
insertion-ordered key/value lists with unique keys). -/
inductive Json where
  | null : Json
  | bool : Bool → Json
  | num : ℚ → Json
  | str : String → Json
  | arr : List Json → Json
  | obj : List (String × Json) → Json

/-- Python `dict` assignment `d[k] = v`: replace the value at an existing
key in place, otherwise append the new pair. -/
def insertKey : List (String × Json) → String → Json → List (String × Json)
  | [], k, v => [(k, v)]
  | (k2, v2) :: rest, k, v =>
      if k2 == k then (k2, v) :: rest else (k2, v2) :: insertKey rest k v

/-- Python `dict` lookup `d[k]` (first — and, after `dedupKeys`, only —
occurrence of the key). -/
def lookupKvs : List (String × Json) → String → Option Json
  | [], _ => none
  | (k2, v) :: rest, k => if k2 == k then some v else lookupKvs rest k

/-- Building a `dict` from parsed members in order: a repeated key keeps its
first position and its last value, as in Python. -/
def dedupKeys (ms : List (String × Json)) : List (String × Json) :=
  ms.foldl (fun acc p => insertKey acc p.1 p.2) []

/-- `d[k]` on an arbitrary `json.loads` result; a non-dict value has no
string keys (Python raises `TypeError`/`KeyError`, modelled as `none`). -/
def jsonLookup (j : Json) (k : String) : Option Json :=
  match j with
  | Json.obj ms => lookupKvs ms k
  | _ => none

/-- JSON whitespace accepted between tokens by `json.loads`. -/
def jsonWs (c : Char) : Bool := c = ' ' || c = '\t' || c = '\n' || c = '\r'

def skipWs (cs : List Char) : List Char := cs.dropWhile jsonWs

/-- The value of one hex digit (code points 97-102 are `a`-`f`, whose values
start at `97 - 87 = 10`; code points 65-70 are `A`-`F`, values from
`65 - 55 = 10`). -/
def hexVal (c : Char) : Option Nat :=
  if c.isDigit then some (digitVal c)
  else if 97 ≤ c.toNat && c.toNat ≤ 102 then some (c.toNat - 87)
  else if 65 ≤ c.toNat && c.toNat ≤ 70 then some (c.toNat - 55)
  else none

/-- The body of a JSON string literal (after the opening quote), with the
escape sequences `json.loads` accepts. -/
def parseJString : Nat → List Char → Option (List Char × List Char)
  | 0, _ => none
  | _ + 1, [] => none
  | fuel + 1, c :: rest =>
      if c = '"' then some ([], rest)
      else if c = '\\' then
        match rest with
        | [] => none
        | e :: rest2 =>
            let cont := fun (ch : Char) (r : List Char) =>
              (parseJString fuel r).map (fun p => (ch :: p.1, p.2))
            if e = '"' then cont '"' rest2
            else if e = '\\' then cont '\\' rest2
            else if e = '/' then cont '/' rest2
            else if e = 'b' then cont (Char.ofNat 8) rest2
            else if e = 'f' then cont (Char.ofNat 12) rest2
            else if e = 'n' then cont '\n' rest2
            else if e = 'r' then cont '\r' rest2
            else if e = 't' then cont '\t' rest2
            else if e = 'u' then
              match rest2 with
              | h1 :: h2 :: h3 :: h4 :: rest3 =>
                  match hexVal h1, hexVal h2, hexVal h3, hexVal h4 with
                  | some a, some b, some c2, some d =>
                      cont (Char.ofNat (((a * 16 + b) * 16 + c2) * 16 + d)) rest3
                  | _, _, _, _ => none
              | _ => none
            else none
      else (parseJString fuel rest).map (fun p => (c :: p.1, p.2))

/-- Exact rational value of a parsed JSON number
`sign mantissa * 10^(exp - fracLen)`, assembled with a single `mkRat`. -/
def ratOfParts (neg : Bool) (mantissa : Nat) (e10 : Int) : ℚ :=
  let m : Int := if neg then -(Int.ofNat mantissa) else Int.ofNat mantissa
  if e10 < 0 then mkRat m (natTenPow e10.natAbs)
  else mkRat (m * Int.ofNat (natTenPow e10.toNat)) 1

/-- A JSON number at the head of the input, per the strict grammar
`json.loads` uses: optional `-`; integer part `0` or a nonzero-led digit
run; optional `.` + digits; optional exponent.  An ill-formed tail (for
example `1.` or `1e`) is left unconsumed, so the surrounding context fails
exactly where Python's parser raises. -/
def parseNumber (cs : List Char) : Option (Json × List Char) :=
  let signSplit : Bool × List Char :=
    match cs with
    | '-' :: rest => (true, rest)
    | _ => (false, cs)
  let neg := signSplit.1
  let cs1 := signSplit.2
  match cs1 with
  | [] => none
  | c :: _ =>
      if c.isDigit then
        let intSplit : List Char × List Char :=
          match cs1 with
          | '0' :: rest => (['0'], rest)
          | _ => (cs1.takeWhile Char.isDigit, cs1.dropWhile Char.isDigit)
        let ipart := intSplit.1
        let cs2 := intSplit.2
        let fracSplit : List Char × List Char :=
          match cs2 with
          | '.' :: rest =>
              let ds := rest.takeWhile Char.isDigit
              if ds.isEmpty then ([], cs2) else (ds, rest.dropWhile Char.isDigit)
          | _ => ([], cs2)
        let fpart := fracSplit.1
        let cs3 := fracSplit.2
        let expSplit : Bool × List Char × List Char :=
          match cs3 with
          | e :: rest =>
              if e = 'e' || e = 'E' then
                let signRest : Bool × List Char :=
                  match rest with
                  | '-' :: r => (true, r)
                  | '+' :: r => (false, r)
                  | _ => (false, rest)
                let ds := signRest.2.takeWhile Char.isDigit
                if ds.isEmpty then (false, [], cs3)
                else (signRest.1, ds, signRest.2.dropWhile Char.isDigit)
              else (false, [], cs3)
          | [] => (false, [], cs3)
        let expNeg := expSplit.1
        let eDigits := expSplit.2.1
        let cs4 := expSplit.2.2
        let expVal : Int :=
          if expNeg then -(Int.ofNat (natOfDigits eDigits))
          else Int.ofNat (natOfDigits eDigits)
        some (Json.num (ratOfParts neg (natOfDigits (ipart ++ fpart))
          (expVal - Int.ofNat fpart.length)), cs4)
      else none

mutual

/-- Recursive descent for a JSON value, modelling `json.loads`.  The fuel
bounds recursion depth; `json_loads` supplies more than the input can
consume. -/
def parseValue : Nat → List Char → Option (Json × List Char)
  | 0, _ => none
  | fuel + 1, cs =>
      match skipWs cs with
      | [] => none
      | c :: rest =>
          if c = '\x7b' then
            match skipWs rest with
            | '\x7d' :: rest2 => some (Json.obj [], rest2)
            | rest2 => (parseMembers fuel rest2).map
                (fun p => (Json.obj (dedupKeys p.1), p.2))
          else if c = '[' then
            match skipWs rest with
            | ']' :: rest2 => some (Json.arr [], rest2)
            | rest2 => (parseElems fuel rest2).map (fun p => (Json.arr p.1, p.2))
          else if c = '"' then
            (parseJString fuel rest).map (fun p => (Json.str (String.mk p.1), p.2))
          else if c = 't' then
            match rest with
            | 'r' :: 'u' :: 'e' :: r => some (Json.bool true, r)
            | _ => none
          else if c = 'f' then
            match rest with
            | 'a' :: 'l' :: 's' :: 'e' :: r => some (Json.bool false, r)
            | _ => none
          else if c = 'n' then
            match rest with
            | 'u' :: 'l' :: 'l' :: r => some (Json.null, r)
            | _ => none
          else parseNumber (c :: rest)

/-- One or more comma-separated array elements up to the closing `]`. -/
def parseElems : Nat → List Char → Option (List Json × List Char)
  | 0, _ => none
  | fuel + 1, cs =>
      match parseValue fuel cs with
      | none => none
      | some (j, rest) =>
          match skipWs rest with
          | ',' :: rest2 => (parseElems fuel rest2).map (fun p => (j :: p.1, p.2))
          | ']' :: rest2 => some ([j], rest2)
          | _ => none

/-- One or more `"key": value` members up to the closing brace. -/
def parseMembers : Nat → List Char → Option (List (String × Json) × List Char)
  | 0, _ => none
  | fuel + 1, cs =>
      match skipWs cs with
      | '"' :: rest =>
          match parseJString fuel rest with
          | none => none
          | some (k, rest2) =>
              match skipWs rest2 with
              | ':' :: rest3 =>
                  match parseValue fuel rest3 with
                  | none => none
                  | some (v, rest4) =>
                      match skipWs rest4 with
                      | ',' :: rest5 => (parseMembers fuel rest5).map
                          (fun p => ((String.mk k, v) :: p.1, p.2))
                      | '\x7d' :: rest5 => some ([(String.mk k, v)], rest5)
                      | _ => none
              | _ => none
      | _ => none

end

/-- `json.loads`: parse one JSON value and require only whitespace after it;
`none` models a raised `json.JSONDecodeError`. -/
def json_loads (s : String) : Option Json :=
  match parseValue (2 * s.length + 8) s.data with
  | some (j, rest) => if skipWs rest = [] then some j else none
  | none => none

/-- The lowercase hex digit for a value below 16 (code point 48 is `0`,
and 87 + 10 = 97 is `a`). -/
def hexDigit (n : Nat) : Char :=
  Char.ofNat (if n < 10 then 48 + n else 87 + n)

/-- One character of a serialized JSON string, with `json.dumps`'s default
`ensure_ascii=True` behaviour (non-ASCII and control characters become
`\uXXXX`). -/
def escapeChar (c : Char) : List Char :=
  if c = '"' then ['\\', '"']
  else if c = '\\' then ['\\', '\\']
  else if c = '\n' then ['\\', 'n']
  else if c = '\t' then ['\\', 't']
  else if c = '\r' then ['\\', 'r']
  else if c.toNat < 32 || c.toNat > 126 then
    ['\\', 'u', hexDigit (c.toNat / 4096 % 16), hexDigit (c.toNat / 256 % 16),
      hexDigit (c.toNat / 16 % 16), hexDigit (c.toNat % 16)]
  else [c]

def escapeJString (s : String) : String :=
  "\"" ++ String.mk (s.data.foldr (fun c acc => escapeChar c ++ acc) []) ++ "\""

/-- Rendering of a JSON number.  Python renders the `float`/`int` via
`repr`; the exact digit string is immaterial here (serialized text is only
ever compared with text produced by this same function), so a rational is
rendered as `num` or `num/den`. -/
def dumpNum (q : ℚ) : String :=
  if q.den = 1 then toString q.num
  else toString q.num ++ "/" ++ toString q.den

mutual

/-- `json.dumps` with its default separators `", "` and `": "`. -/
def json_dumps : Json → String
  | Json.null => "null"
  | Json.bool b => if b then "true" else "false"
  | Json.num q => dumpNum q
  | Json.str s => escapeJString s
  | Json.arr es => "[" ++ dumpsElems es ++ "]"
  | Json.obj ms => "\x7b" ++ dumpsMembers ms ++ "\x7d"

def dumpsElems : List Json → String
  | [] => ""
  | [j] => json_dumps j
  | j :: rest => json_dumps j ++ ", " ++ dumpsElems rest

def dumpsMembers : List (String × Json) → String
  | [] => ""
  | [(k, v)] => escapeJString k ++ ": " ++ json_dumps v
  | (k, v) :: rest =>
      escapeJString k ++ ": " ++ json_dumps v ++ ", " ++ dumpsMembers rest

end

/-- Python `str.strip()`: drop leading and trailing whitespace. -/
def pyStrip (s : String) : String :=
  String.mk
    (((s.data.dropWhile Char.isWhitespace).reverse.dropWhile
      Char.isWhitespace).reverse)

/-- Is `pre` a prefix of `cs`?  (Python `str.startswith`.) -/
def listStartsWith : List Char → List Char → Bool
  | [], _ => true
  | p :: ps, cs =>
      match cs with
      | c :: rest => p == c && listStartsWith ps rest
      | [] => false

def startsWithStr (s pre : String) : Bool := listStartsWith pre.data s.data

def pySplitAux (sep : List Char) : Nat → List Char → List Char → List (List Char)
  | 0, acc, cs => [acc.reverse ++ cs]
  | _ + 1, acc, [] => [acc.reverse]
  | fuel + 1, acc, c :: cs =>
      if listStartsWith sep (c :: cs) then
        acc.reverse :: pySplitAux sep fuel [] (List.drop sep.length (c :: cs))
      else pySplitAux sep fuel (c :: acc) cs

/-- Python `str.split(sep)` for a non-empty separator: the pieces between
non-overlapping occurrences of `sep`, with empty pieces kept. -/
def pySplit (s sep : String) : List String :=
  (pySplitAux sep.data (s.length + 1) [] s.data).map String.mk

/-- Python `text[4:]`: drop the first four characters. -/
def strDropFour (s : String) : String := String.mk (s.data.drop 4)

/-- The code-fence handling shared by every response-parsing site in
`intelligence.py` (`wander`, `validate`, `discover_context`,
`integrate_answers`, `plan`):

    text = response.content[0].text.strip()
    if text.startswith("```"):
        text = text.split("```")[1]
        if text.startswith("json"):
            text = text[4:]
        text = text.strip()

When `text` starts with three backticks the split has at least two pieces,
so the `[1]` index never raises. -/
def strip_fences (raw : String) : String :=
  let text := pyStrip raw
  if startsWithStr text "```" then
    let t1 := (pySplit text "```").getD 1 ""
    let t2 := if startsWithStr t1 "json" then strDropFour t1 else t1
    pyStrip t2
  else text

/-! ## Intelligence operations (`intelligence.py`) -/

/-- The single error kind of a response-parsing failure: `json.loads`
raised on output that is not well-formed after fence stripping. -/
inductive ParseErr where
  | malformed
deriving DecidableEq

/-- `intelligence.wander`, from the reasoning service's raw response text
onward (the prompt-building half only chooses that text): strip fences,
`json.loads`, and return whatever parses — a failure propagates as a raised
`JSONDecodeError` (`ParseErr.malformed`), never as a default value. -/
def wander_parse (text : String) : Except ParseErr Json :=
  match json_loads (strip_fences text) with
  | some j => Except.ok j
  | none => Except.error ParseErr.malformed

/-- `intelligence.plan`, from the raw response text onward; the parsing
pipeline is identical to `wander`'s (the source repeats it verbatim). -/
def plan_parse (text : String) : Except ParseErr Json :=
  match json_loads (strip_fences text) with
  | some j => Except.ok j
  | none => Except.error ParseErr.malformed

/-- The `Optional[float]` result of the forecasting step, as stored into
the Python dict: `None` becomes JSON `null`. -/
def jsonOfOptProb : Option ℚ → Json
  | none => Json.null
  | some q => Json.num q

/-- `intelligence.validate` (lines 95-157), with the two external calls
made explicit: `hasToken`/`forecastCall` feed `get_calibrated_probability`
(Step 1), and `reasoningText` is the reasoning service's raw response
(Step 2's call).  The response is fence-stripped and parsed, and the
forecast probability is attached under `"calibrated_confidence"`
(`result["calibrated_confidence"] = calibrated_prob`).  `none` models the
operation raising: `json.loads` failing, or the parsed result not being a
dict (item assignment raises `TypeError`). -/
def validate (hasToken : Bool) (forecastCall : Except Unit String)
    (reasoningText : String) : Option Json :=
  let calibrated_prob := get_calibrated_probability hasToken forecastCall
  match json_loads (strip_fences reasoningText) with
  | some (Json.obj ms) =>
      some (Json.obj (insertKey ms "calibrated_confidence"
        (jsonOfOptProb calibrated_prob)))
  | _ => none

/-- `intelligence.discover_context`, from its inputs onward.  The reasoning
service is the oracle argument: it maps the call's inputs (project name,
goal, known context — the data the prompt is built from) to the raw
response text, which is then fence-stripped and parsed. -/
def discover_context (oracle : String → String → Option Json → String)
    (project_name goal : String) (known_context : Option Json) : Option Json :=
  json_loads (strip_fences (oracle project_name goal known_context))

/-- `intelligence.integrate_answers`, from its inputs onward, with the
reasoning service as an oracle from the call's inputs (project name, goal,
existing context, new answers) to the raw response text. -/
def integrate_answers
    (oracle : String → String → Option Json → List (String × String) → String)
    (project_name goal : String) (existing_context : Option Json)
    (new_answers : List (String × String)) : Option Json :=
  json_loads (strip_fences (oracle project_name goal existing_context new_answers))

/-! ## The persisted graph store (`models.py`, handlers in `main.py`)

Rows are records in lists; a committed request maps the old store to the
new one, and a request that raises before `db.commit()` leaves the store
unchanged (the session's pending changes are discarded).  Identifiers
(`uuid4()`) and timestamps (`datetime.utcnow()`) come from the environment
and are passed as arguments.  The `Project` record carries `context` and
`context_completeness`: `main.py` and the `ProjectResponse` schema
read and write these attributes (the persistence layer itself,
`database.py`, is not part of the sources; its standard
commit/rollback behaviour is modelled from the spec's persistence-boundary
contract).  `context_completeness` holds a raw JSON value rather than a
number: `models.py` declares no column that would constrain it, and
`main.answer_context` assigns `completeness_check["context_completeness"]`
to it without any type check, so whatever value the discover response
carried is committed. -/

structure Project where
  id : String
  name : String
  goal : Option String
  context : Option String
  context_completeness : Json
  created_at : Nat

structure Idea where
  id : String
  project_id : String
  title : String
  description : Option String
  status : String
  confidence : Option ℚ
  calibrated_confidence : Option ℚ
  validation_reasoning : Option String
  parent_id : Option String
  position_x : ℚ
  position_y : ℚ
  created_at : Nat
  updated_at : Nat
deriving DecidableEq

structure Connection where
  id : String
  source_id : String
  target_id : String
  label : Option String
  created_at : Nat
deriving DecidableEq

structure Store where
  projects : List Project
  ideas : List Idea
  connections : List Connection

/-- Error kinds surfaced by the handlers: `notFound` is the explicit
`HTTPException(404)`, `internal` is any other uncaught exception
(`json.JSONDecodeError`, `KeyError`, `TypeError`), which aborts the request
before `db.commit()`. -/
inductive ApiError where
  | notFound
  | internal
deriving DecidableEq

def isNotFound : {α : Type} → Except ApiError α → Bool
  | _, Except.error ApiError.notFound => true
  | _, _ => false

/-- `schemas.ProjectUpdate`: the PATCH body declares four optional fields. -/
structure ProjectUpdate where
  name : Option String
  goal : Option String
  context : Option String
  context_completeness : Option ℚ
deriving DecidableEq

/-- `schemas.IdeaCreate`. -/
structure IdeaCreate where
  project_id : String
  title : String
  description : Option String
  status : String
  parent_id : Option String
  position_x : ℚ
  position_y : ℚ
deriving DecidableEq

/-- `schemas.ConnectionCreate`. -/
structure ConnectionCreate where
  source_id : String
  target_id : String
  label : Option String
deriving DecidableEq

/-- The `Idea` row built by `create_idea`/`create_ideas_batch` from an
`IdeaCreate` body (the columns not listed default: confidences and
reasoning are `NULL`, timestamps are `utcnow`). -/
def mkIdeaRow (newId : String) (now : Nat) (idea : IdeaCreate) : Idea :=
  { id := newId
    project_id := idea.project_id
    title := idea.title
    description := idea.description
    status := idea.status
    confidence := none
    calibrated_confidence := none
    validation_reasoning := none
    parent_id := idea.parent_id
    position_x := idea.position_x
    position_y := idea.position_y
    created_at := now
    updated_at := now }

/-- `main.create_idea` (lines 115-134): verify the project exists
(404 before anything is added), then insert the row. -/
def create_idea (db : Store) (newId : String) (now : Nat) (idea : IdeaCreate) :
    Except ApiError Idea × Store :=
  match db.projects.find? (fun p => p.id == idea.project_id) with
  | none => (Except.error ApiError.notFound, db)
  | some _ =>
      let row := mkIdeaRow newId now idea
      (Except.ok row, { db with ideas := db.ideas ++ [row] })

/-- `main.create_ideas_batch` (lines 339-360): build and insert a row per
request body, in order.  The handler performs no existence check of any
kind. -/
def create_ideas_batch (db : Store) (newIds : Nat → String) (now : Nat)
    (ideas : List IdeaCreate) : Except ApiError (List Idea) × Store :=
  let rows := (List.range ideas.length).zipWith
    (fun i idea => mkIdeaRow (newIds i) now idea) ideas
  (Except.ok rows, { db with ideas := db.ideas ++ rows })

/-- `main.create_connection` (lines 177-194): verify both endpoint ideas
exist (404 before anything is added), then insert the row. -/
def create_connection (db : Store) (newId : String) (now : Nat)
    (conn : ConnectionCreate) : Except ApiError Connection × Store :=
  let source := db.ideas.find? (fun i => i.id == conn.source_id)
  let target := db.ideas.find? (fun i => i.id == conn.target_id)
  match source, target with
  | some _, some _ =>
      let row : Connection :=
        { id := newId
          source_id := conn.source_id
          target_id := conn.target_id
          label := conn.label
          created_at := now }
      (Except.ok row, { db with connections := db.connections ++ [row] })
  | _, _ => (Except.error ApiError.notFound, db)

/-- `main.update_project` (lines 86-99): 404 when missing; otherwise apply
the `name` and `goal` fields when they are not `None` — the handler reads
no other field of the update body. -/
def update_project (db : Store) (projectId : String) (upd : ProjectUpdate) :
    Except ApiError Project × Store :=
  match db.projects.find? (fun p => p.id == projectId) with
  | none => (Except.error ApiError.notFound, db)
  | some project =>
      let p1 := match upd.name with
        | some n => { project with name := n }
        | none => project
      let p2 := match upd.goal with
        | some g => { p1 with goal := some g }
        | none => p1
      (Except.ok p2,
        { db with projects :=
            db.projects.map (fun q => if q.id == projectId then p2 else q) })

/-- `main.delete_idea` (lines 164-172) with the `models.py` relationship
cascades: deleting an Idea also deletes its `outgoing_connections`
(`Connection.source_id == idea.id`) and `incoming_connections`
(`Connection.target_id == idea.id`), both declared
`cascade="all, delete-orphan"`. -/
def delete_idea (db : Store) (ideaId : String) : Except ApiError Unit × Store :=
  match db.ideas.find? (fun i => i.id == ideaId) with
  | none => (Except.error ApiError.notFound, db)
  | some _ =>
      (Except.ok (),
        { db with
          ideas := db.ideas.filter (fun i => !(i.id == ideaId))
          connections := db.connections.filter
            (fun c => !(c.source_id == ideaId || c.target_id == ideaId)) })

/-- `main.delete_project` (lines 102-110) with the `models.py` cascades:
`Project.ideas` is `cascade="all, delete-orphan"`, and each deleted Idea in
turn cascades to the Connections in which it is the source or the target. -/
def delete_project (db : Store) (projectId : String) :
    Except ApiError Unit × Store :=
  match db.projects.find? (fun p => p.id == projectId) with
  | none => (Except.error ApiError.notFound, db)
  | some _ =>
      let deletedIds := (db.ideas.filter
        (fun i => i.project_id == projectId)).map (fun i => i.id)
      (Except.ok (),
        { db with
          projects := db.projects.filter (fun p => !(p.id == projectId))
          ideas := db.ideas.filter (fun i => !(i.project_id == projectId))
          connections := db.connections.filter
            (fun c => !(deletedIds.any (fun d => d == c.source_id) ||
              deletedIds.any (fun d => d == c.target_id))) })

/-- The `if project.context: try json.loads(...) except JSONDecodeError:
pass` pattern shared by `wander`, `discover_context` and `answer_context`:
a missing or empty (falsy) stored context, or one that fails to parse,
yields `None`. -/
def parseStoredContext : Option String → Option Json
  | none => none
  | some s => if s == "" then none else json_loads s

/-- `goal = project.goal or "achieving strategic objectives"`: Python `or`
takes the default when the goal is `None` or empty (falsy). -/
def goalOrDefault : Option String → String
  | none => "achieving strategic objectives"
  | some g => if g == "" then "achieving strategic objectives" else g

/-- The response body of `main.answer_context`:
`{"context": ..., "context_completeness": ..., "summary": ...}`.
`context_completeness` is `project.context_completeness` after the
assignment — the raw dict value, whatever its JSON type. -/
structure AnswerOut where
  context : Json
  context_completeness : Json
  summary : Json

/-- `main.answer_context` (lines 295-334), step by step and in the
program's order: find the project (404 if missing); parse its stored
context; merge the request's answers through `integrate_answers`; assign
the serialized merged context to the project; call `discover_context`
afresh on the merged context and assign the returned
`completeness_check["context_completeness"]` — a `KeyError`/`TypeError`
here happens before `db.commit()`, so the store is unchanged, while a
present value of any JSON type is assigned unchecked; then `db.commit()`;
and only after the commit build the response dict, whose
`completeness_check["summary"]` access can still raise — in that case the
request fails (`ApiError.internal`) but the new context and completeness
are already committed, so the returned store carries them. -/
def answer_context
    (int_svc : String → String → Option Json → List (String × String) → String)
    (disc_svc : String → String → Option Json → String)
    (db : Store) (projectId : String) (answers : List (String × String)) :
    Except ApiError AnswerOut × Store :=
  match db.projects.find? (fun p => p.id == projectId) with
  | none => (Except.error ApiError.notFound, db)
  | some project =>
      let goal := goalOrDefault project.goal
      let existing_context := parseStoredContext project.context
      match integrate_answers int_svc project.name goal existing_context answers with
      | none => (Except.error ApiError.internal, db)
      | some new_context =>
          match discover_context disc_svc project.name goal (some new_context) with
          | none => (Except.error ApiError.internal, db)
          | some completeness_check =>
              match jsonLookup completeness_check "context_completeness" with
              | none => (Except.error ApiError.internal, db)
              | some cc =>
                  let updated := { project with
                    context := some (json_dumps new_context)
                    context_completeness := cc }
                  let newProjects := db.projects.map (fun q =>
                    if q.id == projectId then updated else q)
                  let committed := { db with projects := newProjects }
                  match jsonLookup completeness_check "summary" with
                  | none => (Except.error ApiError.internal, committed)
                  | some summ =>
                      (Except.ok
                        { context := new_context
                          context_completeness := cc
                          summary := summ },
                        committed)

/-! ## Helper lemmas -/

theorem lookupKvs_insertKey_self (ms : List (String × Json)) (k : String)
    (v : Json) : lookupKvs (insertKey ms k v) k = some v := by
  induction ms with
  | nil => simp [insertKey, lookupKvs]
  | cons p rest ih =>
      obtain ⟨k2, v2⟩ := p
      cases h : k2 == k with
      | true => simp [insertKey, h, lookupKvs]
      | false => simp [insertKey, h, lookupKvs, ih]

theorem lookupKvs_insertKey_ne (ms : List (String × Json)) (k k2 : String)
    (v : Json) (hne : k2 ≠ k) :
    lookupKvs (insertKey ms k v) k2 = lookupKvs ms k2 := by
  induction ms with
  | nil =>
      have hk : (k == k2) = false := by
        simp [beq_iff_eq]
        exact fun h => hne h.symm
      simp [insertKey, lookupKvs, hk]
  | cons p rest ih =>
      obtain ⟨k3, v3⟩ := p
      cases h3 : k3 == k with
      | true =>
          have hk3 : k3 = k := by simpa [beq_iff_eq] using h3
          have h32 : (k3 == k2) = false := by
            simp [beq_iff_eq, hk3]
            exact fun h => hne h.symm
          simp [insertKey, h3, lookupKvs, h32]
      | false => simp [insertKey, h3, lookupKvs, ih]

theorem clamp01_mem (q : ℚ) : 0 ≤ clamp01 q ∧ clamp01 q ≤ 1 := by
  simp only [clamp01]
  split_ifs <;> constructor <;> linarith

theorem extract_probability_range (s : String) (q : ℚ)
    (h : extract_probability s = some q) : 0 ≤ q ∧ q ≤ 1 := by
  unfold extract_probability at h
  cases hd : (decimalMatches s).getLast? with
  | some prob =>
      rw [hd] at h
      simp only [Option.some.injEq] at h
      exact h ▸ clamp01_mem prob
  | none =>
      rw [hd] at h
      cases hp : (percentMatches s).getLast? with
      | some pct =>
          rw [hp] at h
          simp only [Option.some.injEq] at h
          exact h ▸ clamp01_mem _
      | none => rw [hp] at h; exact absurd h (by simp)

theorem get_calibrated_probability_range (hasToken : Bool)
    (call : Except Unit String) (q : ℚ)
    (h : get_calibrated_probability hasToken call = some q) : 0 ≤ q ∧ q ≤ 1 := by
  unfold get_calibrated_probability at h
  cases hasToken with
  | false => exact absurd h (by simp)
  | true =>
      cases call with
      | error e => exact absurd h (by simp)
      | ok resp => exact extract_probability_range resp q (by simpa using h)

theorem get_calibrated_probability_eq_none (hasToken : Bool)
    (call : Except Unit String)
    (h : hasToken = false ∨ call = Except.error () ∨
      ∀ resp, call = Except.ok resp → extract_probability resp = none) :
    get_calibrated_probability hasToken call = none := by
  rcases h with h | h | h
  · subst h; rfl
  · subst h; cases hasToken <;> rfl
  · cases hasToken with
    | false => rfl
    | true =>
        cases call with
        | error e => rfl
        | ok resp =>
            simpa [get_calibrated_probability] using h resp rfl

theorem validate_of_loads_obj (hasToken : Bool) (call : Except Unit String)
    (text : String) (ms : List (String × Json))
    (h : json_loads (strip_fences text) = some (Json.obj ms)) :
    validate hasToken call text = some (Json.obj (insertKey ms
      "calibrated_confidence"
      (jsonOfOptProb (get_calibrated_probability hasToken call)))) := by
  simp [validate, h]

theorem validate_isSome_eq (h1 h2 : Bool) (c1 c2 : Except Unit String)
    (text : String) :
    (validate h1 c1 text).isSome = (validate h2 c2 text).isSome := by
  unfold validate
  cases hj : json_loads (strip_fences text) with
  | none => simp
  | some j => cases j <;> simp

/-! ## Claim theorems -/

/-- Claim C1: for every hypothesis and context, `validate` attaches the
calibrated forecast probability from Step 1 to the parsed reasoning result
unmodified — the returned record's `calibrated_confidence` is exactly the
forecasting step's value, every other key (in particular `confidence`) is
exactly as in the parsed response, and the two scores are never numerically
combined. -/
theorem validate_reports_confidences_side_by_side :
    ∀ (hasToken : Bool) (call : Except Unit String) (text : String)
      (ms : List (String × Json)),
      json_loads (strip_fences text) = some (Json.obj ms) →
      ∃ out, validate hasToken call text = some (Json.obj out) ∧
        out = insertKey ms "calibrated_confidence"
          (jsonOfOptProb (get_calibrated_probability hasToken call)) ∧
        lookupKvs out "calibrated_confidence" =
          some (jsonOfOptProb (get_calibrated_probability hasToken call)) ∧
        ∀ k, k ≠ "calibrated_confidence" → lookupKvs out k = lookupKvs ms k := by
  intro hasToken call text ms h
  refine ⟨_, validate_of_loads_obj hasToken call text ms h, rfl, ?_, ?_⟩
  · exact lookupKvs_insertKey_self ms _ _
  · intro k hk
    exact lookupKvs_insertKey_ne ms _ k _ hk

theorem validate_reports_confidences_side_by_side_witness :
    ∃ out,
      validate true (Except.ok "probability: 0.9")
        "\x7b\"confidence\": 0.7, \"reasoning\": \"ok\"\x7d" =
        some (Json.obj out) ∧
      out = insertKey
        [("confidence", Json.num (mkRat 7 10)), ("reasoning", Json.str "ok")]
        "calibrated_confidence"
        (jsonOfOptProb (get_calibrated_probability true
          (Except.ok "probability: 0.9"))) ∧
      lookupKvs out "calibrated_confidence" =
        some (jsonOfOptProb (get_calibrated_probability true
          (Except.ok "probability: 0.9"))) ∧
      ∀ k, k ≠ "calibrated_confidence" →
        lookupKvs out k = lookupKvs
          [("confidence", Json.num (mkRat 7 10)), ("reasoning", Json.str "ok")]
          k :=
  validate_reports_confidences_side_by_side true (Except.ok "probability: 0.9")
    "\x7b\"confidence\": 0.7, \"reasoning\": \"ok\"\x7d"
    [("confidence", Json.num (mkRat 7 10)), ("reasoning", Json.str "ok")] rfl

/-- Claim C2: probability extraction scans for decimal tokens and takes the
last match clamped to `[0,1]`; failing that it takes the last percentage
token divided by 100 and clamped; failing both it is unavailable.  In
particular `"...0.42...0.71 final"` yields `0.71`, `"...85%..."` (which has
no decimal token) yields `0.85`, and text with neither pattern yields
`none`. -/
theorem extraction_last_match_wins :
    (∀ s q, (decimalMatches s).getLast? = some q →
      extract_probability s = some (clamp01 q)) ∧
    (∀ s pct, (decimalMatches s).getLast? = none →
      (percentMatches s).getLast? = some pct →
      extract_probability s = some (clamp01 (mkRat (Int.ofNat pct) 100))) ∧
    (∀ s, (decimalMatches s).getLast? = none →
      (percentMatches s).getLast? = none → extract_probability s = none) ∧
    extract_probability "...0.42...0.71 final" = some (71 / 100) ∧
    extract_probability "...85%..." = some (85 / 100) ∧
    extract_probability "no probability signal" = none := by
  have h71 : (71 / 100 : ℚ) = mkRat 71 100 := by
    rw [Rat.mkRat_eq_div]; norm_num
  have h85 : (85 / 100 : ℚ) = mkRat 85 100 := by
    rw [Rat.mkRat_eq_div]; norm_num
  refine ⟨?_, ?_, ?_, ?_, ?_, ?_⟩
  · intro s q h; unfold extract_probability; rw [h]
  · intro s pct hd hp; unfold extract_probability; rw [hd, hp]
  · intro s hd hp; unfold extract_probability; rw [hd, hp]
  · rw [h71]; rfl
  · rw [h85]; rfl
  · rfl

theorem extraction_last_match_wins_witness :
    extract_probability "0.5" = some (clamp01 (mkRat 1 2)) :=
  extraction_last_match_wins.1 "0.5" (mkRat 1 2) rfl

/-- Claim C3: whenever the forecasting service is unconfigured, its call
raises, or its output has no extractable probability, `validate` still
completes exactly as it would with any forecaster outcome (the reasoning
side alone decides success), and any record it returns carries
`calibrated_confidence = null` — never a substituted number. -/
theorem forecast_unavailable_never_aborts_validate :
    ∀ (hasToken : Bool) (call : Except Unit String) (text : String),
      (hasToken = false ∨ call = Except.error () ∨
        ∀ resp, call = Except.ok resp → extract_probability resp = none) →
      (validate hasToken call text).isSome =
        (validate true (Except.ok "0.5") text).isSome ∧
      ∀ j, validate hasToken call text = some j →
        jsonLookup j "calibrated_confidence" = some Json.null := by
  intro hasToken call text h
  have hnone := get_calibrated_probability_eq_none hasToken call h
  constructor
  · exact validate_isSome_eq hasToken true call (Except.ok "0.5") text
  · intro j hj
    unfold validate at hj
    cases hl : json_loads (strip_fences text) with
    | none => rw [hl] at hj; exact absurd hj (by simp)
    | some j2 =>
        rw [hl] at hj
        cases j2 with
        | obj ms =>
            simp only [Option.some.injEq] at hj
            subst hj
            simpa [jsonLookup, hnone, jsonOfOptProb] using
              lookupKvs_insertKey_self ms "calibrated_confidence" Json.null
        | null => exact absurd hj (by simp)
        | bool b => exact absurd hj (by simp)
        | num q => exact absurd hj (by simp)
        | str s2 => exact absurd hj (by simp)
        | arr es => exact absurd hj (by simp)

theorem forecast_unavailable_never_aborts_validate_witness :
    (validate false (Except.error ()) "\x7b\"confidence\": 0.6\x7d").isSome =
      (validate true (Except.ok "0.5") "\x7b\"confidence\": 0.6\x7d").isSome ∧
    ∀ j, validate false (Except.error ()) "\x7b\"confidence\": 0.6\x7d" =
      some j → jsonLookup j "calibrated_confidence" = some Json.null :=
  forecast_unavailable_never_aborts_validate false (Except.error ())
    "\x7b\"confidence\": 0.6\x7d" (Or.inl rfl)

/-- A syntactically valid reasoning response whose `confidence` value lies
outside `[0, 1]`; nothing in `validate` rejects or clamps it. -/
def overconfidentReply : String :=
  "\x7b\"confidence\": 1.5, \"reasoning\": \"r\", \"risks\": [], \"next_steps\": []\x7d"

/-- Claim C4 counterexample: a concrete `validate` run whose returned
record has `confidence = 1.5 ∉ [0, 1]` — the handler copies the reasoning
service's value with no range check, so the claimed bound fails. -/
theorem validate_confidence_out_of_range_cx :
    (validate false (Except.error ()) overconfidentReply).bind
      (fun j => jsonLookup j "confidence") = some (Json.num (mkRat 3 2)) ∧
    ¬ (mkRat 3 2 ≤ (1 : ℚ)) := by
  constructor
  · rfl
  · decide

/-- Claim C4 as amended: in the record returned by `validate`,
`calibrated_confidence` — when present (non-null) — is always in
`[0.0, 1.0]` (the extraction step clamps it); `confidence`, by contrast, is
copied from the reasoning response without range enforcement, so it lies in
`[0.0, 1.0]` exactly when the response's value does. -/
theorem validate_calibrated_clamped_confidence_passthrough :
    ∀ (hasToken : Bool) (call : Except Unit String) (text : String) (j : Json),
      validate hasToken call text = some j →
      (jsonLookup j "calibrated_confidence" = some Json.null ∨
        ∃ q, jsonLookup j "calibrated_confidence" = some (Json.num q) ∧
          0 ≤ q ∧ q ≤ 1) ∧
      (∀ ms v, json_loads (strip_fences text) = some (Json.obj ms) →
        lookupKvs ms "confidence" = some v →
        jsonLookup j "confidence" = some v) := by
  intro hasToken call text j hj
  unfold validate at hj
  cases hl : json_loads (strip_fences text) with
  | none => rw [hl] at hj; exact absurd hj (by simp)
  | some j2 =>
      rw [hl] at hj
      cases j2 with
      | obj ms =>
          simp only [Option.some.injEq] at hj
          subst hj
          constructor
          · cases hc : get_calibrated_probability hasToken call with
            | none =>
                left
                simpa [jsonLookup, hc, jsonOfOptProb] using
                  lookupKvs_insertKey_self ms "calibrated_confidence" Json.null
            | some q =>
                right
                refine ⟨q, ?_, get_calibrated_probability_range hasToken call q hc⟩
                simpa [jsonLookup, hc, jsonOfOptProb] using
                  lookupKvs_insertKey_self ms "calibrated_confidence" (Json.num q)
          · intro ms2 v hl2 hv
            simp only [Option.some.injEq, Json.obj.injEq] at hl2
            subst hl2
            have hne : "confidence" ≠ "calibrated_confidence" := by decide
            simpa [jsonLookup, hv] using
              lookupKvs_insertKey_ne ms "calibrated_confidence" "confidence"
                (jsonOfOptProb (get_calibrated_probability hasToken call)) hne
      | null => exact absurd hj (by simp)
      | bool b => exact absurd hj (by simp)
      | num q => exact absurd hj (by simp)
      | str s2 => exact absurd hj (by simp)
      | arr es => exact absurd hj (by simp)

theorem validate_calibrated_clamped_confidence_passthrough_witness :
    (jsonLookup (Json.obj [("confidence", Json.num (mkRat 3 2)),
        ("reasoning", Json.str "r"), ("risks", Json.arr []),
        ("next_steps", Json.arr []), ("calibrated_confidence", Json.null)])
      "calibrated_confidence" = some Json.null ∨
      ∃ q, jsonLookup (Json.obj [("confidence", Json.num (mkRat 3 2)),
        ("reasoning", Json.str "r"), ("risks", Json.arr []),
        ("next_steps", Json.arr []), ("calibrated_confidence", Json.null)])
        "calibrated_confidence" = some (Json.num q) ∧ 0 ≤ q ∧ q ≤ 1) ∧
    (∀ ms v,
      json_loads (strip_fences overconfidentReply) = some (Json.obj ms) →
      lookupKvs ms "confidence" = some v →
      jsonLookup (Json.obj [("confidence", Json.num (mkRat 3 2)),
        ("reasoning", Json.str "r"), ("risks", Json.arr []),
        ("next_steps", Json.arr []), ("calibrated_confidence", Json.null)])
        "confidence" = some v) :=
  validate_calibrated_clamped_confidence_passthrough false (Except.error ())
    overconfidentReply _ rfl

def emptyStore : Store := { projects := [], ideas := [], connections := [] }

def orphanIdeaReq : IdeaCreate :=
  { project_id := "p1", title := "t", description := none,
    status := "resonance", parent_id := none, position_x := 0, position_y := 0 }

/-- Claim C5 counterexample: in a store with no projects at all, batch idea
creation with a dangling `project_id` does not fail with NotFound — the
handler performs no existence check — and it inserts the row. -/
theorem batch_create_skips_project_check_cx :
    emptyStore.projects.find? (fun p => p.id == "p1") = none ∧
    isNotFound
      (create_ideas_batch emptyStore (fun _ => "i1") 0 [orphanIdeaReq]).1 =
      false ∧
    ((create_ideas_batch emptyStore (fun _ => "i1") 0
      [orphanIdeaReq]).2).ideas.length = 1 :=
  ⟨rfl, rfl, rfl⟩

/-- Claim C5 as amended: single idea creation fails with NotFound and
leaves the store unchanged when the referenced project does not exist, but
batch creation never raises NotFound — it checks nothing. -/
theorem idea_creation_project_check_amended :
    (∀ db newId now idea,
      db.projects.find? (fun p => p.id == idea.project_id) = none →
      (create_idea db newId now idea).1 = Except.error ApiError.notFound ∧
      (create_idea db newId now idea).2 = db) ∧
    (∀ db newIds now ideas,
      isNotFound (create_ideas_batch db newIds now ideas).1 = false) := by
  constructor
  · intro db newId now idea h
    unfold create_idea
    rw [h]
    exact ⟨rfl, rfl⟩
  · intro db newIds now ideas
    rfl

theorem idea_creation_project_check_amended_witness :
    (create_idea emptyStore "i1" 0 orphanIdeaReq).1 =
      Except.error ApiError.notFound ∧
    (create_idea emptyStore "i1" 0 orphanIdeaReq).2 = emptyStore :=
  idea_creation_project_check_amended.1 emptyStore "i1" 0 orphanIdeaReq rfl

/-- Claim C6: creating a Connection whose source or target Idea identifier
does not exist fails with NotFound, and the store is unchanged. -/
theorem connection_creation_checks_endpoints :
    ∀ db newId now conn,
      (db.ideas.find? (fun i => i.id == conn.source_id) = none ∨
        db.ideas.find? (fun i => i.id == conn.target_id) = none) →
      (create_connection db newId now conn).1 = Except.error ApiError.notFound ∧
      (create_connection db newId now conn).2 = db := by
  intro db newId now conn h
  unfold create_connection
  rcases h with h | h
  · rw [h]
    cases db.ideas.find? (fun i => i.id == conn.target_id) <;> exact ⟨rfl, rfl⟩
  · rw [h]
    cases db.ideas.find? (fun i => i.id == conn.source_id) <;> exact ⟨rfl, rfl⟩

def sampleProject : Project :=
  { id := "p1", name := "proj", goal := some "goal", context := none,
    context_completeness := Json.num 0, created_at := 0 }

def sampleIdea (i : String) : Idea :=
  { id := i, project_id := "p1", title := "t", description := none,
    status := "resonance", confidence := none, calibrated_confidence := none,
    validation_reasoning := none, parent_id := none, position_x := 0,
    position_y := 0, created_at := 0, updated_at := 0 }

def sampleConn (i src tgt : String) : Connection :=
  { id := i, source_id := src, target_id := tgt, label := none,
    created_at := 0 }

/-- A store with one project, two of its ideas, and one connection between
them. -/
def graphStore : Store :=
  { projects := [sampleProject]
    ideas := [sampleIdea "a", sampleIdea "b"]
    connections := [sampleConn "c1" "a" "b"] }

theorem connection_creation_checks_endpoints_witness :
    (create_connection graphStore "c2" 0
      { source_id := "a", target_id := "zzz", label := none }).1 =
      Except.error ApiError.notFound ∧
    (create_connection graphStore "c2" 0
      { source_id := "a", target_id := "zzz", label := none }).2 =
      graphStore :=
  connection_creation_checks_endpoints graphStore "c2" 0
    { source_id := "a", target_id := "zzz", label := none } (Or.inr rfl)

/-- Claim C7: a successful project deletion leaves no project with that
identifier, no idea of that project, and no connection incident to any of
the project's (pre-deletion) ideas; a successful idea deletion leaves no
connection in which that idea is the source or the target. -/
theorem delete_cascades_leave_no_residue :
    (∀ db projectId r db2, delete_project db projectId = (r, db2) →
      r = Except.ok () →
      (∀ p, p ∈ db2.projects → ¬ p.id = projectId) ∧
      (∀ i, i ∈ db2.ideas → ¬ i.project_id = projectId) ∧
      (∀ c, c ∈ db2.connections → ∀ i, i ∈ db.ideas →
        i.project_id = projectId →
        ¬ c.source_id = i.id ∧ ¬ c.target_id = i.id)) ∧
    (∀ db ideaId r db2, delete_idea db ideaId = (r, db2) →
      r = Except.ok () →
      ∀ c, c ∈ db2.connections →
        ¬ c.source_id = ideaId ∧ ¬ c.target_id = ideaId) := by
  constructor
  · intro db projectId r db2 heq hok
    unfold delete_project at heq
    cases hf : db.projects.find? (fun p => p.id == projectId) with
    | none =>
        rw [hf] at heq
        injection heq with h1 h2
        rw [← h1] at hok
        exact absurd hok (by simp)
    | some p0 =>
        rw [hf] at heq
        injection heq with h1 h2
        subst h2
        refine ⟨?_, ?_, ?_⟩
        · intro p hp
          simp only [List.mem_filter, Bool.not_eq_eq_eq_not, Bool.not_true,
            beq_eq_false_iff_ne, ne_eq] at hp
          exact hp.2
        · intro i hi
          simp only [List.mem_filter, Bool.not_eq_eq_eq_not, Bool.not_true,
            beq_eq_false_iff_ne, ne_eq] at hi
          exact hi.2
        · intro c hc i hi hproj
          simp only [List.mem_filter, Bool.not_eq_eq_eq_not, Bool.not_true,
            Bool.or_eq_false_iff, List.any_eq_false, List.mem_map,
            List.mem_filter, beq_iff_eq] at hc
          obtain ⟨-, hsrc, htgt⟩ := hc
          constructor
          · intro hcontra
            exact hsrc i.id ⟨i, ⟨hi, by simp [hproj]⟩, rfl⟩ hcontra.symm
          · intro hcontra
            exact htgt i.id ⟨i, ⟨hi, by simp [hproj]⟩, rfl⟩ hcontra.symm
  · intro db ideaId r db2 heq hok
    unfold delete_idea at heq
    cases hf : db.ideas.find? (fun i => i.id == ideaId) with
    | none =>
        rw [hf] at heq
        injection heq with h1 h2
        rw [← h1] at hok
        exact absurd hok (by simp)
    | some i0 =>
        rw [hf] at heq
        injection heq with h1 h2
        subst h2
        intro c hc
        simp only [List.mem_filter, Bool.not_eq_eq_eq_not, Bool.not_true,
          Bool.or_eq_false_iff, beq_eq_false_iff_ne, ne_eq] at hc
        exact hc.2

theorem delete_cascades_leave_no_residue_witness :
    (∀ p, p ∈ (delete_project graphStore "p1").2.projects → ¬ p.id = "p1") ∧
    (∀ i, i ∈ (delete_project graphStore "p1").2.ideas →
      ¬ i.project_id = "p1") ∧
    (∀ c, c ∈ (delete_project graphStore "p1").2.connections →
      ∀ i, i ∈ graphStore.ideas → i.project_id = "p1" →
        ¬ c.source_id = i.id ∧ ¬ c.target_id = i.id) :=
  delete_cascades_leave_no_residue.1 graphStore "p1"
    (delete_project graphStore "p1").1 (delete_project graphStore "p1").2
    rfl rfl

/-- Claim C8: when `answer_context` succeeds, the stored project context is
exactly the serialization of the merged context object produced by
`integrate_answers`, and the stored completeness score is exactly the
`context_completeness` reported by a fresh `discover_context` invocation on
that merged context — re-derived, not incrementally bumped. -/
theorem answer_context_rederives_completeness :
    ∀ int_svc disc_svc db projectId answers out db2 project new_context,
      db.projects.find? (fun p => p.id == projectId) = some project →
      integrate_answers int_svc project.name (goalOrDefault project.goal)
        (parseStoredContext project.context) answers = some new_context →
      answer_context int_svc disc_svc db projectId answers =
        (Except.ok out, db2) →
      out.context = new_context ∧
      (∃ check,
        discover_context disc_svc project.name (goalOrDefault project.goal)
          (some new_context) = some check ∧
        jsonLookup check "context_completeness" =
          some out.context_completeness ∧
        jsonLookup check "summary" = some out.summary) ∧
      (∀ p2, p2 ∈ db2.projects → p2.id = projectId →
        p2.context = some (json_dumps new_context) ∧
        p2.context_completeness = out.context_completeness) := by
  intro isvc dsvc db projectId answers out db2 project newCtx hfind hint hrun
  simp only [answer_context, hfind, hint] at hrun
  cases hdisc : discover_context dsvc project.name (goalOrDefault project.goal)
      (some newCtx) with
  | none => rw [hdisc] at hrun; simp at hrun
  | some check =>
      rw [hdisc] at hrun
      dsimp only at hrun
      cases hcc : jsonLookup check "context_completeness" with
      | none => rw [hcc] at hrun; simp at hrun
      | some cc =>
          rw [hcc] at hrun
          dsimp only at hrun
          cases hsum : jsonLookup check "summary" with
          | none => rw [hsum] at hrun; simp at hrun
          | some summ =>
              rw [hsum] at hrun
              simp only [Prod.mk.injEq, Except.ok.injEq] at hrun
              obtain ⟨hout, hdb⟩ := hrun
              subst hout
              subst hdb
              refine ⟨rfl, ⟨check, rfl, hcc, hsum⟩, ?_⟩
              intro p2 hp2 hid
              simp only [List.mem_map] at hp2
              obtain ⟨q, hq, hq2⟩ := hp2
              by_cases hqid : q.id = projectId
              · rw [if_pos (by simp [beq_iff_eq, hqid])] at hq2
                subst hq2
                exact ⟨rfl, rfl⟩
              · rw [if_neg (by simp [beq_iff_eq, hqid])] at hq2
                subst hq2
                exact absurd hid hqid

/-- A reasoning-service double for `integrate_answers`: always replies with
one merged context object. -/
def intOracle : String → String → Option Json → List (String × String) → String :=
  fun _ _ _ _ => "\x7b\"k\": \"v\"\x7d"

/-- A reasoning-service double for `discover_context`: always replies with
a completeness of 0.5. -/
def discOracle : String → String → Option Json → String :=
  fun _ _ _ =>
    "\x7b\"questions\": [], \"context_completeness\": 0.5, \"summary\": \"s\"\x7d"

def ctxStore : Store :=
  { projects := [sampleProject], ideas := [], connections := [] }

def ctxOut : AnswerOut :=
  { context := Json.obj [("k", Json.str "v")]
    context_completeness := Json.num (mkRat 1 2)
    summary := Json.str "s" }

def ctxStore2 : Store :=
  { projects := [{ sampleProject with
      context := some "\x7b\"k\": \"v\"\x7d"
      context_completeness := Json.num (mkRat 1 2) }]
    ideas := [], connections := [] }

theorem answer_context_rederives_completeness_witness :
    ctxOut.context = Json.obj [("k", Json.str "v")] ∧
    (∃ check,
      discover_context discOracle sampleProject.name
        (goalOrDefault sampleProject.goal)
        (some (Json.obj [("k", Json.str "v")])) = some check ∧
      jsonLookup check "context_completeness" =
        some ctxOut.context_completeness ∧
      jsonLookup check "summary" = some ctxOut.summary) ∧
    (∀ p2, p2 ∈ ctxStore2.projects → p2.id = "p1" →
      p2.context = some (json_dumps (Json.obj [("k", Json.str "v")])) ∧
      p2.context_completeness = ctxOut.context_completeness) :=
  answer_context_rederives_completeness intOracle discOracle ctxStore "p1" []
    ctxOut ctxStore2 sampleProject (Json.obj [("k", Json.str "v")]) rfl rfl rfl

def fencedWander : String := "```json\n[\"idea one\", \"idea two\"]\n```"

/-- Claim C9: for `wander` and `plan`, leading code-fence markers
(``` ``` ``` or ``` ```json ```) around the reasoning service's output are
stripped before parsing, and output that is not well-formed JSON after
stripping makes the operation fail with a parse error — it is never
silently replaced by an empty or default list (a success carries exactly
what parsed). -/
theorem fences_stripped_then_parse_or_error :
    (∀ text, json_loads (strip_fences text) = none →
      wander_parse text = Except.error ParseErr.malformed ∧
      plan_parse text = Except.error ParseErr.malformed) ∧
    (∀ text j, wander_parse text = Except.ok j →
      json_loads (strip_fences text) = some j) ∧
    (∀ text j, plan_parse text = Except.ok j →
      json_loads (strip_fences text) = some j) ∧
    strip_fences fencedWander = "[\"idea one\", \"idea two\"]" ∧
    wander_parse fencedWander =
      Except.ok (Json.arr [Json.str "idea one", Json.str "idea two"]) ∧
    plan_parse "```\n[\"x\"]\n```" = Except.ok (Json.arr [Json.str "x"]) ∧
    wander_parse "no structured output" = Except.error ParseErr.malformed := by
  refine ⟨?_, ?_, ?_, rfl, rfl, rfl, rfl⟩
  · intro text h
    unfold wander_parse plan_parse
    rw [h]
    exact ⟨rfl, rfl⟩
  · intro text j h
    unfold wander_parse at h
    cases hl : json_loads (strip_fences text) with
    | none => rw [hl] at h; exact absurd h (by simp)
    | some j2 =>
        rw [hl] at h
        simp only [Except.ok.injEq] at h
        rw [h]
  · intro text j h
    unfold plan_parse at h
    cases hl : json_loads (strip_fences text) with
    | none => rw [hl] at h; exact absurd h (by simp)
    | some j2 =>
        rw [hl] at h
        simp only [Except.ok.injEq] at h
        rw [h]

theorem fences_stripped_then_parse_or_error_witness :
    wander_parse "not a json array" = Except.error ParseErr.malformed ∧
    plan_parse "not a json array" = Except.error ParseErr.malformed :=
  fences_stripped_then_parse_or_error.1 "not a json array" rfl

/-- Claim C10: a project PATCH applies only the `name` and `goal` fields of
the update body; the stored project keeps its `context`,
`context_completeness`, `created_at` and `id` regardless of the values
supplied for the other declared update fields, and no other row in the
store changes. -/
theorem update_project_touches_only_name_goal :
    ∀ db projectId upd project r db2,
      db.projects.find? (fun p => p.id == projectId) = some project →
      update_project db projectId upd = (r, db2) →
      db2.ideas = db.ideas ∧ db2.connections = db.connections ∧
      ∃ p2, r = Except.ok p2 ∧
        p2.id = project.id ∧
        p2.context = project.context ∧
        p2.context_completeness = project.context_completeness ∧
        p2.created_at = project.created_at ∧
        p2.name = (match upd.name with | some n => n | none => project.name) ∧
        p2.goal =
          (match upd.goal with | some g => some g | none => project.goal) ∧
        db2.projects =
          db.projects.map (fun q => if q.id == projectId then p2 else q) := by
  intro db projectId upd project r db2 hfind heq
  unfold update_project at heq
  rw [hfind] at heq
  injection heq with h1 h2
  subst h1
  subst h2
  refine ⟨rfl, rfl, ?_⟩
  cases hn : upd.name with
  | none =>
      cases hg : upd.goal with
      | none => exact ⟨_, rfl, rfl, rfl, rfl, rfl, rfl, rfl, rfl⟩
      | some g => exact ⟨_, rfl, rfl, rfl, rfl, rfl, rfl, rfl, rfl⟩
  | some n =>
      cases hg : upd.goal with
      | none => exact ⟨_, rfl, rfl, rfl, rfl, rfl, rfl, rfl, rfl⟩
      | some g => exact ⟨_, rfl, rfl, rfl, rfl, rfl, rfl, rfl, rfl⟩

def intrusiveUpdate : ProjectUpdate :=
  { name := some "renamed", goal := none, context := some "junk",
    context_completeness := some (mkRat 9 10) }

theorem update_project_touches_only_name_goal_witness :
    (update_project graphStore "p1" intrusiveUpdate).2.ideas =
      graphStore.ideas ∧
    (update_project graphStore "p1" intrusiveUpdate).2.connections =
      graphStore.connections ∧
    ∃ p2, (update_project graphStore "p1" intrusiveUpdate).1 =
        Except.ok p2 ∧
      p2.id = sampleProject.id ∧
      p2.context = sampleProject.context ∧
      p2.context_completeness = sampleProject.context_completeness ∧
      p2.created_at = sampleProject.created_at ∧
      p2.name = (match intrusiveUpdate.name with
        | some n => n
        | none => sampleProject.name) ∧
      p2.goal = (match intrusiveUpdate.goal with
        | some g => some g
        | none => sampleProject.goal) ∧
      (update_project graphStore "p1" intrusiveUpdate).2.projects =
        graphStore.projects.map
          (fun q => if q.id == "p1" then p2 else q) :=
  update_project_touches_only_name_goal graphStore "p1" intrusiveUpdate
    sampleProject (update_project graphStore "p1" intrusiveUpdate).1
    (update_project graphStore "p1" intrusiveUpdate).2 rfl rfl
